import Mathlib

/-!
Shallow embedding of the multi-timer program (src/main.go).

Durations (Go time.Duration, an int64 nanosecond count) are modelled as `Int`
with explicit reduction modulo 2^64 (`wrap64`) at the arithmetic operations
where 64-bit overflow can occur. Go panics (out-of-range slice indexing) are
modelled by `Option`: `none` is a panic. The `notify` collaborator is modelled
by returning the list of (title, message) pairs that the code would emit.
-/

/-- One second in nanoseconds (Go time.Second). -/
def second : Int := 1000000000

/-- One minute in nanoseconds (Go time.Minute). -/
def minute : Int := 60000000000

/-- Reduce an integer to the int64 value Go two-complement arithmetic yields. -/
def wrap64 (n : Int) : Int := (n + 2 ^ 63) % 2 ^ 64 - 2 ^ 63

/-- Go struct TimerPhase (main.go lines 16-19). -/
structure TimerPhase where
  WorkDuration : Int
  BreakDuration : Int
deriving Repr, DecidableEq

/-- Go struct TimerState (main.go lines 21-28). -/
structure TimerState where
  isWork : Bool
  currentTime : Int
  cycles : Int
  currentPhase : Nat
  name : String
  notifText : String
deriving Repr, DecidableEq

/-- Go struct Timer (main.go lines 30-35); maxCycles = -1 means unlimited. -/
structure Timer where
  state : TimerState
  phases : List TimerPhase
  maxCycles : Int
  isPaused : Bool
deriving Repr, DecidableEq

/-- Go struct TimerConfig (main.go lines 37-42). -/
structure TimerConfig where
  Name : String
  NotifText : String
  Phases : List TimerPhase
  MaxCycles : Int
deriving Repr, DecidableEq

/-- Timer.update (main.go lines 123-152). Returns the updated timer, the
completed flag, and the notifications emitted; `none` models the slice
indexing panic when currentPhase is out of range. -/
def Timer.update (t : Timer) : Option (Timer × Bool × List (String × String)) :=
  if t.isPaused then
    some (t, false, [])
  else if t.state.currentTime ≤ 0 then
    match t.phases.get? t.state.currentPhase with
    | none => none
    | some currentPhase =>
      if t.state.isWork then
        some ({ t with state := { t.state with
                  isWork := false, currentTime := currentPhase.BreakDuration } },
              false, [(t.state.name, "Break: " ++ t.state.notifText)])
      else
        let newCycles := t.state.cycles + 1
        if t.maxCycles ≠ -1 ∧ newCycles > t.maxCycles then
          let newPhase := t.state.currentPhase + 1
          if newPhase ≥ t.phases.length then
            some ({ t with state := { t.state with
                      cycles := newCycles, currentPhase := newPhase } },
                  true, [(t.state.name, "All phases completed: " ++ t.state.notifText)])
          else
            match t.phases.get? newPhase with
            | none => none
            | some ph =>
              some ({ t with state := { t.state with
                        cycles := 1, currentPhase := newPhase,
                        isWork := true, currentTime := ph.WorkDuration } },
                    false, [(t.state.name, t.state.notifText)])
        else
          match t.phases.get? t.state.currentPhase with
          | none => none
          | some ph =>
            some ({ t with state := { t.state with
                      cycles := newCycles, isWork := true,
                      currentTime := ph.WorkDuration } },
                  false, [(t.state.name, t.state.notifText)])
  else
    some ({ t with state := { t.state with
              currentTime := t.state.currentTime - second } }, false, [])

/-- n successive calls of Timer.update, accumulating the emitted
notifications; `none` if any call panics. -/
def Timer.updateIter : Nat → Timer → Option (Timer × List (String × String))
  | 0, t => some (t, [])
  | n + 1, t =>
    match t.update with
    | none => none
    | some (t1, _, ns) =>
      match Timer.updateIter n t1 with
      | none => none
      | some (t2, ns2) => some (t2, ns ++ ns2)

/-- One pass of the tick loop body over the active-timer list (main.go lines
161-169): every timer is updated once, in reverse index order, and timers
reporting completion are removed in place. -/
def tickTimers : List Timer → Option (List Timer)
  | [] => some []
  | t :: rest =>
    match tickTimers rest with
    | none => none
    | some rest1 =>
      match t.update with
      | none => none
      | some (t1, completed, _) =>
        some (if completed then rest1 else t1 :: rest1)

/-- The pure part of the Go TimerManager (main.go lines 78-83): the parallel
active-timer and config lists; the mutex and the display channel are modelled
separately (see LoopState). -/
structure TimerManager where
  activeTimers : List Timer
  configs : List TimerConfig
deriving Repr, DecidableEq

/-- The delete-command branch of main (main.go lines 432-444): for a valid
1-based index num, both lists drop entry num-1 via Go slice surgery
append(xs[:num-1], xs[num:]...); anything else is a no-op. -/
def TimerManager.deleteTimer (tm : TimerManager) (num : Nat) : TimerManager :=
  if 0 < num ∧ num ≤ tm.activeTimers.length then
    { activeTimers := tm.activeTimers.take (num - 1) ++ tm.activeTimers.drop num,
      configs := tm.configs.take (num - 1) ++ tm.configs.drop num }
  else tm

/-- The reset-command branch of main (main.go lines 421-430): for a valid
1-based index num, sets that timer's currentTime to phases[0].WorkDuration;
`none` models the panic when the phase list is empty. -/
def TimerManager.resetTimer (tm : TimerManager) (num : Nat) : Option TimerManager :=
  if 0 < num ∧ num ≤ tm.activeTimers.length then
    match tm.activeTimers.get? (num - 1) with
    | none => none
    | some t =>
      match t.phases.get? 0 with
      | none => none
      | some p0 =>
        let t1 := { t with state := { t.state with currentTime := p0.WorkDuration } }
        some { tm with activeTimers := tm.activeTimers.set (num - 1) t1 }
  else some tm

/-- The pause-command branch of main (main.go lines 410-419): for a valid
1-based index num, flips that timer's isPaused flag; anything else is a
no-op. (The get? fallback is unreachable under the range guard.) -/
def TimerManager.togglePause (tm : TimerManager) (num : Nat) : TimerManager :=
  if 0 < num ∧ num ≤ tm.activeTimers.length then
    match tm.activeTimers.get? (num - 1) with
    | none => tm
    | some t =>
      let t1 := { t with isPaused := !t.isPaused }
      { tm with activeTimers := tm.activeTimers.set (num - 1) t1 }
  else tm

/-- The add-command branch of main (main.go lines 398-403): appends the new
timer and its config to the two parallel lists. -/
def TimerManager.addTimer (tm : TimerManager) (t : Timer) (c : TimerConfig) : TimerManager :=
  { activeTimers := tm.activeTimers ++ [t], configs := tm.configs ++ [c] }

/-- timerFromConfig (main.go lines 337-351); `none` models the panic on
config.Phases[0] when the phase list is empty. -/
def timerFromConfig (config : TimerConfig) : Option Timer :=
  match config.Phases.get? 0 with
  | none => none
  | some p0 =>
    some { state := { isWork := true, currentTime := p0.WorkDuration, cycles := 1,
                      currentPhase := 0, name := config.Name, notifText := config.NotifText },
           phases := config.Phases, maxCycles := config.MaxCycles, isPaused := false }

/-- The Timer value built at the end of createTimer (main.go lines 320-332)
from the interactively collected name, notification text, phases and cycle
policy; `none` models the panic on phases[0] when the phase list is empty. -/
def createTimerFromInputs (name notifText : String) (phases : List TimerPhase)
    (maxCycles : Int) : Option Timer :=
  match phases.get? 0 with
  | none => none
  | some p0 =>
    some { state := { isWork := true, currentTime := p0.WorkDuration, cycles := 1,
                      currentPhase := 0, name := name, notifText := notifText },
           phases := phases, maxCycles := maxCycles, isPaused := false }

/-- Characters Go strings.TrimSpace strips (the ASCII White_Space set; the
inputs of interest are ASCII). -/
def isSpaceChar (c : Char) : Bool :=
  c = ' ' ∨ c = '\t' ∨ c = '\n' ∨ c = '\r' ∨ c = '\x0b' ∨ c = '\x0c'

/-- strings.TrimSpace on the character list of a string. -/
def trimSpaceList (cs : List Char) : List Char :=
  ((cs.dropWhile isSpaceChar).reverse.dropWhile isSpaceChar).reverse

/-- strings.Contains(input, a single-character separator). -/
def containsColon (cs : List Char) : Bool := cs.any (fun c => c = ':')

/-- strings.Split(input, a single-character separator): splits at every
occurrence, keeping empty fields. -/
def splitColon : List Char → List (List Char)
  | [] => [[]]
  | c :: rest =>
    if c = ':' then [] :: splitColon rest
    else
      match splitColon rest with
      | [] => [[c]]
      | g :: gs => (c :: g) :: gs

/-- Value of a list of decimal digit characters. -/
def digitsVal (cs : List Char) : Int :=
  cs.foldl (fun acc c => acc * 10 + ((c.toNat : Int) - 48)) 0

/-- strconv.Atoi: optional sign, one or more ASCII decimal digits, value
within the int64 range (out-of-range input returns an error). -/
def goAtoi (cs : List Char) : Option Int :=
  let signed : Bool × List Char :=
    match cs with
    | '+' :: rest => (false, rest)
    | '-' :: rest => (true, rest)
    | rest => (false, rest)
  let ds := signed.2
  if ds = [] then none
  else if ds.all (fun c => c.isDigit) then
    let v : Int := if signed.1 then -digitsVal ds else digitsVal ds
    if -(2 ^ 63) ≤ v ∧ v < 2 ^ 63 then some v else none
  else none

/-- parseDuration (main.go lines 208-227). The returned duration is the int64
value Go computes: each multiplication and the addition wrap modulo 2^64. -/
def parseDuration (input : String) : Option Int :=
  let cs := trimSpaceList input.data
  if containsColon cs then
    match splitColon cs with
    | [m, s] =>
      match goAtoi m, goAtoi s with
      | some minutes, some seconds =>
        some (wrap64 (wrap64 (minutes * minute) + wrap64 (seconds * second)))
      | _, _ => none
    | _ => none
  else
    match goAtoi cs with
    | some minutes => some (wrap64 (minutes * minute))
    | none => none

/-- Structural JSON values, the intermediate form of encoding/json. -/
inductive Json where
  | num : Int → Json
  | str : String → Json
  | arr : List Json → Json
  | obj : List (String × Json) → Json

/-- Field lookup by name in a JSON object, as json.Unmarshal resolves struct
fields. -/
def Json.lookupField : List (String × Json) → String → Option Json
  | [], _ => none
  | (k, v) :: rest, key => if k = key then some v else Json.lookupField rest key

/-- Decode an int64-valued field: a missing field keeps the Go zero value. -/
def decodeIntField (fields : List (String × Json)) (key : String) : Option Int :=
  match Json.lookupField fields key with
  | none => some 0
  | some (Json.num n) => some n
  | some _ => none

/-- Decode a string-valued field: a missing field keeps the Go zero value. -/
def decodeStrField (fields : List (String × Json)) (key : String) : Option String :=
  match Json.lookupField fields key with
  | none => some ""
  | some (Json.str s) => some s
  | some _ => none

/-- TimerPhase.MarshalJSON (main.go lines 45-53): the duration pair as its
int64 nanosecond counts. -/
def encodePhase (p : TimerPhase) : Json :=
  Json.obj [("WorkDuration", Json.num p.WorkDuration),
            ("BreakDuration", Json.num p.BreakDuration)]

/-- TimerPhase.UnmarshalJSON (main.go lines 55-66). -/
def decodePhase : Json → Option TimerPhase
  | Json.obj fields =>
    match decodeIntField fields "WorkDuration", decodeIntField fields "BreakDuration" with
    | some w, some b => some { WorkDuration := w, BreakDuration := b }
    | _, _ => none
  | _ => none

/-- Elementwise decoding of a JSON array of phases. -/
def decodePhaseList : List Json → Option (List TimerPhase)
  | [] => some []
  | j :: rest =>
    match decodePhase j, decodePhaseList rest with
    | some p, some ps => some (p :: ps)
    | _, _ => none

/-- json.Unmarshal into []TimerPhase. -/
def decodePhases : Json → Option (List TimerPhase)
  | Json.arr xs => decodePhaseList xs
  | _ => none

/-- json encoding of one TimerConfig (field names as in the Go struct). -/
def encodeConfig (c : TimerConfig) : Json :=
  Json.obj [("Name", Json.str c.Name), ("NotifText", Json.str c.NotifText),
            ("Phases", Json.arr (c.Phases.map encodePhase)),
            ("MaxCycles", Json.num c.MaxCycles)]

/-- json decoding of one TimerConfig; missing fields keep Go zero values. -/
def decodeConfig : Json → Option TimerConfig
  | Json.obj fields =>
    match decodeStrField fields "Name", decodeStrField fields "NotifText",
          (match Json.lookupField fields "Phases" with
           | none => some []
           | some j => decodePhases j),
          decodeIntField fields "MaxCycles" with
    | some n, some nt, some ps, some mc =>
      some { Name := n, NotifText := nt, Phases := ps, MaxCycles := mc }
    | _, _, _, _ => none
  | _ => none

/-- Elementwise decoding of the config array. -/
def decodeConfigList : List Json → Option (List TimerConfig)
  | [] => some []
  | j :: rest =>
    match decodeConfig j, decodeConfigList rest with
    | some c, some cs => some (c :: cs)
    | _, _ => none

/-- saveTimerConfigs (main.go lines 184-191) up to the file collaborator: the
JSON value written out. -/
def encodeConfigs (cs : List TimerConfig) : Json := Json.arr (cs.map encodeConfig)

/-- loadTimerConfigs (main.go lines 193-206) up to the file collaborator: the
config list decoded back from a JSON value. -/
def decodeConfigs : Json → Option (List TimerConfig)
  | Json.arr xs => decodeConfigList xs
  | _ => none

/-- Non-blocking send on the capacity-1 display channel (main.go lines
173-179): the select with a default drops the signal when one is already
pending. -/
def chanSend (pending : Nat) : Nat := if pending < 1 then pending + 1 else pending

/-- The state the update loop touches: the active-timer list and the number
of redraw requests sitting in the display channel. -/
structure LoopState where
  timers : List Timer
  pendingRedraws : Nat
deriving Repr, DecidableEq

/-- One iteration of the update loop (main.go lines 157-180): tick every
timer, drop completed ones, and, if the list was non-empty (needsDisplay was
set), post a non-blocking redraw request. -/
def tickStep (s : LoopState) : Option LoopState :=
  match tickTimers s.timers with
  | none => none
  | some ts =>
    some { timers := ts,
           pendingRedraws :=
             if s.timers.isEmpty then s.pendingRedraws else chanSend s.pendingRedraws }

/-- n consecutive iterations of the update loop with no intervening drain by
the renderer. -/
def tickIter : Nat → LoopState → Option LoopState
  | 0, s => some s
  | n + 1, s =>
    match tickStep s with
    | none => none
    | some s1 => tickIter n s1

/-! Concrete instances used by counterexamples and witnesses. -/

/-- A single-phase (work 2s, break 1s) unlimited timer, Working, remaining 2s. -/
def c1timer : Timer :=
  ⟨⟨true, 2000000000, 1, 0, "", ""⟩, [⟨2000000000, 1000000000⟩], -1, false⟩

/-- The state c1timer actually reaches after two updates: still Working,
remaining 0. -/
def c1after2 : Timer :=
  ⟨⟨true, 0, 1, 0, "", ""⟩, [⟨2000000000, 1000000000⟩], -1, false⟩

/-- A maxCycles = 1, single-phase timer on its final OnBreak tick. -/
def c2timer : Timer :=
  ⟨⟨false, 0, 1, 0, "w", "m"⟩, [⟨2000000000, 1000000000⟩], 1, false⟩

/-! Theorems, one per claim. -/

/-- C1 (counterexample): for the single-phase work=2s/break=1s unlimited
timer starting in Working with remaining = 2s, two update() calls do NOT
reach OnBreak with remaining = 1s: the timer is still Working with
remaining = 0 (the transition fires only on the third call). -/
theorem single_phase_cycle_cex :
    Timer.updateIter 2 c1timer = some (c1after2, []) ∧
    ¬ (c1after2.state.isWork = false ∧ c1after2.state.currentTime = second) := by
  decide

/-- C1 (amended): for an unpaused single-phase (work 2s, break 1s) unlimited
timer starting in Working with remaining = 2s, three update() calls leave it
OnBreak with remaining = 1s (cycle count unchanged), and two further calls
put it back in Working with the cycle count incremented and remaining = 2s. -/
theorem single_phase_cycle (nm nt : String) (c : Int) :
    ∃ t3 ns3 t5 ns5,
      Timer.updateIter 3
          ⟨⟨true, 2 * second, c, 0, nm, nt⟩, [⟨2 * second, second⟩], -1, false⟩ =
        some (t3, ns3) ∧
      t3.state.isWork = false ∧ t3.state.currentTime = second ∧
      t3.state.cycles = c ∧ t3.state.currentPhase = 0 ∧
      Timer.updateIter 5
          ⟨⟨true, 2 * second, c, 0, nm, nt⟩, [⟨2 * second, second⟩], -1, false⟩ =
        some (t5, ns5) ∧
      t5.state.isWork = true ∧ t5.state.currentTime = 2 * second ∧
      t5.state.cycles = c + 1 ∧ t5.state.currentPhase = 0 := by
  refine ⟨⟨⟨false, second, c, 0, nm, nt⟩, [⟨2 * second, second⟩], -1, false⟩,
          [(nm, "Break: " ++ nt)],
          ⟨⟨true, 2 * second, c + 1, 0, nm, nt⟩, [⟨2 * second, second⟩], -1, false⟩,
          [(nm, "Break: " ++ nt), (nm, nt)],
          ?_, rfl, rfl, rfl, rfl, ?_, rfl, rfl, rfl, rfl⟩ <;> rfl

/-- C2: an unpaused timer with maxCycles = 1 and exactly one phase, OnBreak
with remaining at zero and cycleCount = 1: update() increments cycleCount to
2, advances currentPhaseIndex past the last phase, returns completed, and the
tick loop removes the timer from the active list. -/
theorem bounded_completion (t : Timer) (hpause : t.isPaused = false)
    (hmax : t.maxCycles = 1) (hlen : t.phases.length = 1)
    (hphase : t.state.currentPhase = 0) (hwork : t.state.isWork = false)
    (htime : t.state.currentTime ≤ 0) (hcyc : t.state.cycles = 1) :
    ∃ t1 ns, t.update = some (t1, true, ns) ∧ t1.state.cycles = 2 ∧
      t1.state.currentPhase = 1 ∧ tickTimers [t] = some [] := by
  obtain ⟨⟨w, ct, cy, cp, nm, nt⟩, phs, mc, pa⟩ := t
  simp only at hpause hmax hlen hphase hwork htime hcyc
  subst hpause hmax hphase hwork hcyc
  obtain ⟨p, hp⟩ := List.length_eq_one.mp hlen
  subst hp
  refine ⟨⟨⟨false, ct, 2, 1, nm, nt⟩, [p], 1, false⟩,
          [(nm, "All phases completed: " ++ nt)], ?_, rfl, rfl, ?_⟩
  · simp [Timer.update, htime]
  · simp [tickTimers, Timer.update, htime]

/-- C2 witness at a concrete timer. -/
theorem bounded_completion_witness :
    c2timer.isPaused = false ∧ c2timer.state.currentTime ≤ 0 ∧
    (∃ t1 ns, Timer.update c2timer = some (t1, true, ns) ∧ t1.state.cycles = 2 ∧
      t1.state.currentPhase = 1 ∧ tickTimers [c2timer] = some []) :=
  ⟨rfl, by decide, bounded_completion c2timer rfl rfl rfl rfl rfl (by decide) rfl⟩

/-- C7: a paused timer is a fixed point of update(): one call returns
not-completed, emits no notification, and changes nothing, and so does any
number of consecutive calls. -/
theorem paused_noop (t : Timer) (h : t.isPaused = true) :
    t.update = some (t, false, []) ∧ ∀ n, Timer.updateIter n t = some (t, []) := by
  have h1 : t.update = some (t, false, []) := by
    simp [Timer.update, h]
  refine ⟨h1, ?_⟩
  intro n
  induction n with
  | zero => rfl
  | succ n ih => simp [Timer.updateIter, h1, ih]

/-- A paused timer for the C7 witness. -/
def c7timer : Timer :=
  ⟨⟨true, 5000000000, 3, 0, "p", "q"⟩, [⟨5000000000, 1000000000⟩], 4, true⟩

/-- C7 witness at a concrete paused timer. -/
theorem paused_noop_witness :
    c7timer.isPaused = true ∧ Timer.update c7timer = some (c7timer, false, []) ∧
    Timer.updateIter 5 c7timer = some (c7timer, []) :=
  ⟨rfl, (paused_noop c7timer rfl).1, (paused_noop c7timer rfl).2 5⟩

/-- C10: from any config with a non-empty phase list, both timer
constructors produce the same fresh timer: Working, remaining = first phase
work duration, cycleCount = 1, currentPhaseIndex = 0, not paused. -/
theorem fresh_timer_init (config : TimerConfig) (p0 : TimerPhase)
    (h : config.Phases.get? 0 = some p0) :
    ∃ t, timerFromConfig config = some t ∧
      createTimerFromInputs config.Name config.NotifText config.Phases
        config.MaxCycles = some t ∧
      t.state.isWork = true ∧ t.state.currentTime = p0.WorkDuration ∧
      t.state.cycles = 1 ∧ t.state.currentPhase = 0 ∧ t.isPaused = false := by
  refine ⟨{ state := { isWork := true, currentTime := p0.WorkDuration, cycles := 1,
                       currentPhase := 0, name := config.Name,
                       notifText := config.NotifText },
            phases := config.Phases, maxCycles := config.MaxCycles,
            isPaused := false }, ?_, ?_, rfl, rfl, rfl, rfl, rfl⟩
  · unfold timerFromConfig
    rw [h]
  · unfold createTimerFromInputs
    rw [h]

/-- A concrete config for the C10 witness. -/
def c10config : TimerConfig := ⟨"n", "t", [⟨60000000000, 30000000000⟩], 2⟩

/-- C10 witness at a concrete config. -/
theorem fresh_timer_init_witness :
    c10config.Phases.get? 0 = some ⟨60000000000, 30000000000⟩ ∧
    (∃ t, timerFromConfig c10config = some t ∧
      createTimerFromInputs c10config.Name c10config.NotifText c10config.Phases
        c10config.MaxCycles = some t ∧
      t.state.isWork = true ∧ t.state.currentTime = (60000000000 : Int) ∧
      t.state.cycles = 1 ∧ t.state.currentPhase = 0 ∧ t.isPaused = false) :=
  ⟨rfl, fresh_timer_init c10config ⟨60000000000, 30000000000⟩ rfl⟩

/-- The timer of the C3 counterexample (same scenario as C2): its completing
update leaves currentPhase = 1 = len(phases). -/
def c3timer : Timer :=
  ⟨⟨false, 0, 1, 0, "", ""⟩, [⟨1000000000, 1000000000⟩], 1, false⟩

/-- What the completing update leaves behind: currentPhase one past the end. -/
def c3after : Timer :=
  ⟨⟨false, 0, 2, 1, "", ""⟩, [⟨1000000000, 1000000000⟩], 1, false⟩

/-- C3 (counterexample): on the update() call that reports completion the
invariant currentPhaseIndex < len(phases) does NOT hold afterwards: the index
is left equal to len(phases). -/
theorem phase_index_invariant_cex :
    Timer.update c3timer = some (c3after, true, [("", "All phases completed: ")]) ∧
    c3after.phases ≠ [] ∧
    ¬ c3after.state.currentPhase < c3after.phases.length := by
  decide

/-- C3 (amended): if a timer satisfies currentPhaseIndex < len(phases) then
update() performs only in-bounds phase indexing (it never panics); when it
reports not-completed the invariant still holds afterwards, and on the call
reporting completion currentPhaseIndex is left exactly at len(phases) (one
past the last index; the caller removes the timer). The manager operations
preserve the invariant as well: pause and reset leave every timer's phase
index and phase list unchanged, delete keeps only timers that were already
in the list, and add appends the given fresh timer unchanged. -/
theorem phase_index_invariant (t : Timer) (h : t.state.currentPhase < t.phases.length) :
    ((t.update).isSome = true ∧
     (∀ t1 ns, t.update = some (t1, false, ns) →
       t1.state.currentPhase < t1.phases.length) ∧
     (∀ t1 ns, t.update = some (t1, true, ns) →
       t1.state.currentPhase = t1.phases.length)) ∧
    (∀ (tm : TimerManager) (num j : Nat) (t1 : Timer),
      (TimerManager.togglePause tm num).activeTimers[j]? = some t1 →
      ∃ t0, tm.activeTimers[j]? = some t0 ∧
        t1.state.currentPhase = t0.state.currentPhase ∧ t1.phases = t0.phases) ∧
    (∀ (tm tm1 : TimerManager) (num : Nat), TimerManager.resetTimer tm num = some tm1 →
      ∀ (j : Nat) (t1 : Timer), tm1.activeTimers[j]? = some t1 →
      ∃ t0, tm.activeTimers[j]? = some t0 ∧
        t1.state.currentPhase = t0.state.currentPhase ∧ t1.phases = t0.phases) ∧
    (∀ (tm : TimerManager) (num : Nat) (t1 : Timer),
      t1 ∈ (TimerManager.deleteTimer tm num).activeTimers → t1 ∈ tm.activeTimers) ∧
    (∀ (tm : TimerManager) (t0 : Timer) (c0 : TimerConfig) (j : Nat) (t1 : Timer),
      (TimerManager.addTimer tm t0 c0).activeTimers[j]? = some t1 →
      tm.activeTimers[j]? = some t1 ∨ t1 = t0) := by
  refine ⟨?_, ?_, ?_, ?_, ?_⟩
  · obtain ⟨⟨w, ct, cy, cp, nm, nt⟩, phs, mc, pa⟩ := t
    simp only at h
    have hp : phs[cp]? = some phs[cp] := List.getElem?_eq_getElem h
    cases pa
    · by_cases hct : ct ≤ 0
      · cases w
        · by_cases hmc : mc ≠ -1 ∧ cy + 1 > mc
          · by_cases hlen : cp + 1 ≥ phs.length
            · refine ⟨?_, ?_, ?_⟩
              · simp [Timer.update, hp, hct, hmc, hlen]
              · intro t1 ns h1
                simp [Timer.update, hp, hct, hmc, hlen] at h1
              · intro t1 ns h1
                simp [Timer.update, hp, hct, hmc, hlen] at h1
                obtain ⟨h2, h3⟩ := h1
                subst h2
                simp
                omega
            · have hp1 : phs[cp + 1]? = some phs[cp + 1] :=
                List.getElem?_eq_getElem (by omega)
              refine ⟨?_, ?_, ?_⟩
              · simp [Timer.update, hp, hct, hmc, hlen, hp1]
              · intro t1 ns h1
                simp [Timer.update, hp, hct, hmc, hlen, hp1] at h1
                obtain ⟨h2, h3⟩ := h1
                subst h2
                simp
                omega
              · intro t1 ns h1
                simp [Timer.update, hp, hct, hmc, hlen, hp1] at h1
          · refine ⟨?_, ?_, ?_⟩
            · simp [Timer.update, hp, hct, hmc]
            · intro t1 ns h1
              simp [Timer.update, hp, hct, hmc] at h1
              obtain ⟨h2, h3⟩ := h1
              subst h2
              simpa using h
            · intro t1 ns h1
              simp [Timer.update, hp, hct, hmc] at h1
        · refine ⟨?_, ?_, ?_⟩
          · simp [Timer.update, hp, hct]
          · intro t1 ns h1
            simp [Timer.update, hp, hct] at h1
            obtain ⟨h2, h3⟩ := h1
            subst h2
            simpa using h
          · intro t1 ns h1
            simp [Timer.update, hp, hct] at h1
      · refine ⟨?_, ?_, ?_⟩
        · simp [Timer.update, hct]
        · intro t1 ns h1
          simp [Timer.update, hct] at h1
          obtain ⟨h2, h3⟩ := h1
          subst h2
          simpa using h
        · intro t1 ns h1
          simp [Timer.update, hct] at h1
    · refine ⟨?_, ?_, ?_⟩
      · simp [Timer.update]
      · intro t1 ns h1
        simp [Timer.update] at h1
        obtain ⟨h2, h3⟩ := h1
        subst h2
        simpa using h
      · intro t1 ns h1
        simp [Timer.update] at h1
  · intro tm num j t1 h1
    unfold TimerManager.togglePause at h1
    split at h1
    · rename_i hcond
      cases hg : tm.activeTimers.get? (num - 1) with
      | none =>
        rw [hg] at h1
        exact ⟨t1, h1, rfl, rfl⟩
      | some tx =>
        rw [hg] at h1
        by_cases hj : j = num - 1
        · subst hj
          rw [List.getElem?_set_self (by omega)] at h1
          rw [List.get?_eq_getElem?] at hg
          injection h1 with h1
          exact ⟨tx, hg, by rw [← h1], by rw [← h1]⟩
        · rw [List.getElem?_set_ne (fun he => hj he.symm)] at h1
          exact ⟨t1, h1, rfl, rfl⟩
    · exact ⟨t1, h1, rfl, rfl⟩
  · intro tm tm1 num hres j t1 h1
    unfold TimerManager.resetTimer at hres
    split at hres
    · rename_i hcond
      cases hg : tm.activeTimers.get? (num - 1) with
      | none =>
        rw [hg] at hres
        exact absurd hres (by simp)
      | some tx =>
        simp only [hg] at hres
        cases hpx : tx.phases.get? 0 with
        | none =>
          simp only [hpx] at hres
          exact absurd hres (by simp)
        | some p0 =>
          simp only [hpx, Option.some.injEq] at hres
          rw [← hres] at h1
          by_cases hj : j = num - 1
          · subst hj
            rw [List.getElem?_set_self (by omega)] at h1
            rw [List.get?_eq_getElem?] at hg
            injection h1 with h1
            exact ⟨tx, hg, by rw [← h1], by rw [← h1]⟩
          · rw [List.getElem?_set_ne (fun he => hj he.symm)] at h1
            exact ⟨t1, h1, rfl, rfl⟩
    · simp only [Option.some.injEq] at hres
      rw [← hres] at h1
      exact ⟨t1, h1, rfl, rfl⟩
  · intro tm num t1 h1
    unfold TimerManager.deleteTimer at h1
    split at h1
    · rcases List.mem_append.mp h1 with h2 | h2
      · exact (List.take_sublist _ _).subset h2
      · exact (List.drop_sublist _ _).subset h2
    · exact h1
  · intro tm t0 c0 j t1 h1
    unfold TimerManager.addTimer at h1
    by_cases hj : j < tm.activeTimers.length
    · rw [List.getElem?_append_left hj] at h1
      exact Or.inl h1
    · rw [List.getElem?_append_right (by omega)] at h1
      rcases hd : j - tm.activeTimers.length with _ | k
      · rw [hd] at h1
        injection h1 with h1
        exact Or.inr h1.symm
      · rw [hd] at h1
        exact absurd h1 (by simp)

/-- An in-invariant timer for the C3 witness. -/
def c3ok : Timer :=
  ⟨⟨true, 0, 1, 0, "a", "b"⟩, [⟨2000000000, 1000000000⟩], -1, false⟩

/-- C3 witness at a concrete in-invariant timer. -/
theorem phase_index_invariant_witness :
    c3ok.state.currentPhase < c3ok.phases.length ∧
    ((Timer.update c3ok).isSome = true ∧
     (∀ t1 ns, Timer.update c3ok = some (t1, false, ns) →
       t1.state.currentPhase < t1.phases.length) ∧
     (∀ t1 ns, Timer.update c3ok = some (t1, true, ns) →
       t1.state.currentPhase = t1.phases.length)) :=
  ⟨by decide, (phase_index_invariant c3ok (by decide)).1⟩

/-- Entries of the Go slice surgery append(l[:i-1], l[i:]...): the length
drops by one, entries before i-1 are unchanged, entries from i-1 on shift
down by one. -/
theorem eraseSlice_spec {α : Type} (l : List α) (i : Nat) (h1 : 1 ≤ i)
    (h2 : i ≤ l.length) :
    (l.take (i - 1) ++ l.drop i).length = l.length - 1 ∧
    (∀ j, j < i - 1 → (l.take (i - 1) ++ l.drop i)[j]? = l[j]?) ∧
    (∀ j, i - 1 ≤ j → (l.take (i - 1) ++ l.drop i)[j]? = l[j + 1]?) := by
  have hlt : (l.take (i - 1)).length = i - 1 := by
    rw [List.length_take]
    omega
  refine ⟨?_, ?_, ?_⟩
  · rw [List.length_append, hlt, List.length_drop]
    omega
  · intro j hj
    rw [List.getElem?_append_left (by omega), List.getElem?_take_of_lt hj]
  · intro j hj
    rw [List.getElem?_append_right (by omega), hlt, List.getElem?_drop]
    have hidx : i + (j - (i - 1)) = j + 1 := by omega
    rw [hidx]

/-- C4: deleting a valid 1-based index i removes exactly position i-1 from
both parallel lists: lengths stay equal (one shorter), entries before i-1
are untouched, and entries after shift down by one in both lists. -/
theorem delete_lockstep (tm : TimerManager) (i : Nat) (h1 : 1 ≤ i)
    (h2 : i ≤ tm.activeTimers.length)
    (h3 : tm.configs.length = tm.activeTimers.length) :
    (tm.deleteTimer i).activeTimers.length = tm.activeTimers.length - 1 ∧
    (tm.deleteTimer i).configs.length = (tm.deleteTimer i).activeTimers.length ∧
    (∀ j, j < i - 1 →
      (tm.deleteTimer i).activeTimers[j]? = tm.activeTimers[j]? ∧
      (tm.deleteTimer i).configs[j]? = tm.configs[j]?) ∧
    (∀ j, i - 1 ≤ j →
      (tm.deleteTimer i).activeTimers[j]? = tm.activeTimers[j + 1]? ∧
      (tm.deleteTimer i).configs[j]? = tm.configs[j + 1]?) := by
  obtain ⟨hA1, hA2, hA3⟩ := eraseSlice_spec tm.activeTimers i h1 h2
  obtain ⟨hC1, hC2, hC3⟩ := eraseSlice_spec tm.configs i h1 (by omega)
  have hcond : 0 < i ∧ i ≤ tm.activeTimers.length := ⟨by omega, h2⟩
  unfold TimerManager.deleteTimer
  rw [if_pos hcond]
  refine ⟨hA1, ?_, ?_, ?_⟩
  · rw [hA1, hC1, h3]
  · intro j hj
    exact ⟨hA2 j hj, hC2 j hj⟩
  · intro j hj
    exact ⟨hA3 j hj, hC3 j hj⟩

/-- A concrete two-timer manager for the C4 witness. -/
def c4tm : TimerManager :=
  ⟨[⟨⟨true, 1000000000, 1, 0, "x", "y"⟩, [⟨1000000000, 1000000000⟩], -1, false⟩,
    ⟨⟨true, 2000000000, 1, 0, "u", "v"⟩, [⟨2000000000, 1000000000⟩], 3, false⟩],
   [⟨"x", "y", [⟨1000000000, 1000000000⟩], -1⟩,
    ⟨"u", "v", [⟨2000000000, 1000000000⟩], 3⟩]⟩

/-- C4 witness at a concrete manager, deleting index 1. -/
theorem delete_lockstep_witness :
    c4tm.configs.length = c4tm.activeTimers.length ∧
    ((c4tm.deleteTimer 1).activeTimers.length = c4tm.activeTimers.length - 1 ∧
     (c4tm.deleteTimer 1).configs.length = (c4tm.deleteTimer 1).activeTimers.length ∧
     (∀ j, j < 1 - 1 →
       (c4tm.deleteTimer 1).activeTimers[j]? = c4tm.activeTimers[j]? ∧
       (c4tm.deleteTimer 1).configs[j]? = c4tm.configs[j]?) ∧
     (∀ j, 1 - 1 ≤ j →
       (c4tm.deleteTimer 1).activeTimers[j]? = c4tm.activeTimers[j + 1]? ∧
       (c4tm.deleteTimer 1).configs[j]? = c4tm.configs[j + 1]?)) :=
  ⟨rfl, delete_lockstep c4tm 1 (by decide) (by decide) rfl⟩

/-- C8: resetting a valid 1-based index i sets that timer's remaining time to
its first phase's work duration and changes nothing else: every other state
field and attribute of that timer, every other timer, and the config list are
unchanged. -/
theorem reset_frame (tm : TimerManager) (i : Nat) (t : Timer) (p0 : TimerPhase)
    (h1 : 1 ≤ i) (h2 : i ≤ tm.activeTimers.length)
    (ht : tm.activeTimers[i - 1]? = some t) (hp : t.phases[0]? = some p0) :
    ∃ tm', tm.resetTimer i = some tm' ∧
      tm'.configs = tm.configs ∧
      tm'.activeTimers.length = tm.activeTimers.length ∧
      (∀ j, j ≠ i - 1 → tm'.activeTimers[j]? = tm.activeTimers[j]?) ∧
      (∃ t1, tm'.activeTimers[i - 1]? = some t1 ∧
        t1.state.currentTime = p0.WorkDuration ∧
        t1.state.isWork = t.state.isWork ∧ t1.state.cycles = t.state.cycles ∧
        t1.state.currentPhase = t.state.currentPhase ∧
        t1.state.name = t.state.name ∧ t1.state.notifText = t.state.notifText ∧
        t1.phases = t.phases ∧ t1.maxCycles = t.maxCycles ∧
        t1.isPaused = t.isPaused) := by
  have hcond : 0 < i ∧ i ≤ tm.activeTimers.length := ⟨by omega, h2⟩
  have hi : i - 1 < tm.activeTimers.length := by omega
  let t1 : Timer := { t with state := { t.state with currentTime := p0.WorkDuration } }
  refine ⟨{ tm with activeTimers := tm.activeTimers.set (i - 1) t1 },
          ?_, rfl, by simp, ?_, ?_⟩
  · unfold TimerManager.resetTimer
    rw [if_pos hcond]
    simp only [List.get?_eq_getElem?, ht, hp]
  · intro j hj
    exact List.getElem?_set_ne (fun he => hj he.symm)
  · refine ⟨{ t with state := { t.state with currentTime := p0.WorkDuration } },
            ?_, rfl, rfl, rfl, rfl, rfl, rfl, rfl, rfl, rfl⟩
    exact List.getElem?_set_self hi

/-- A concrete two-timer manager for the C8 witness. -/
def c8tm : TimerManager :=
  ⟨[⟨⟨false, 500000000, 2, 0, "x", "y"⟩, [⟨1000000000, 2000000000⟩], -1, true⟩,
    ⟨⟨true, 2000000000, 1, 0, "u", "v"⟩, [⟨3000000000, 1000000000⟩], 3, false⟩],
   [⟨"x", "y", [⟨1000000000, 2000000000⟩], -1⟩,
    ⟨"u", "v", [⟨3000000000, 1000000000⟩], 3⟩]⟩

/-- The timer at index 0 of c8tm, for the C8 witness. -/
def c8t : Timer :=
  ⟨⟨false, 500000000, 2, 0, "x", "y"⟩, [⟨1000000000, 2000000000⟩], -1, true⟩

/-- C8 witness at a concrete manager, resetting index 1. -/
theorem reset_frame_witness :
    c8tm.activeTimers[1 - 1]? = some c8t ∧
    (∃ tm', c8tm.resetTimer 1 = some tm' ∧
      tm'.configs = c8tm.configs ∧
      tm'.activeTimers.length = c8tm.activeTimers.length ∧
      (∀ j, j ≠ 1 - 1 → tm'.activeTimers[j]? = c8tm.activeTimers[j]?) ∧
      (∃ t1, tm'.activeTimers[1 - 1]? = some t1 ∧
        t1.state.currentTime = (⟨1000000000, 2000000000⟩ : TimerPhase).WorkDuration ∧
        t1.state.isWork = c8t.state.isWork ∧ t1.state.cycles = c8t.state.cycles ∧
        t1.state.currentPhase = c8t.state.currentPhase ∧
        t1.state.name = c8t.state.name ∧ t1.state.notifText = c8t.state.notifText ∧
        t1.phases = c8t.phases ∧ t1.maxCycles = c8t.maxCycles ∧
        t1.isPaused = c8t.isPaused)) :=
  ⟨rfl, reset_frame c8tm 1 c8t ⟨1000000000, 2000000000⟩ (by decide) (by decide) rfl rfl⟩

/-- What one loop iteration does to the pending-redraw count. -/
theorem tickStep_pending (s s1 : LoopState) (h : tickStep s = some s1) :
    s1.pendingRedraws =
      if s.timers.isEmpty then s.pendingRedraws else chanSend s.pendingRedraws := by
  unfold tickStep at h
  cases htt : tickTimers s.timers with
  | none =>
    rw [htt] at h
    exact absurd h (by simp)
  | some ts =>
    rw [htt] at h
    simp only [Option.some.injEq] at h
    rw [← h]

/-- Once exactly one redraw request is pending, further undrained loop
iterations keep exactly one pending. -/
theorem tickIter_pending_stable (n : Nat) :
    ∀ s s1, s.pendingRedraws = 1 → tickIter n s = some s1 → s1.pendingRedraws = 1 := by
  induction n with
  | zero =>
    intro s s1 h h1
    simp only [tickIter, Option.some.injEq] at h1
    rw [← h1]
    exact h
  | succ k ih =>
    intro s s1 h h1
    unfold tickIter at h1
    cases hstep : tickStep s with
    | none =>
      rw [hstep] at h1
      exact absurd h1 (by simp)
    | some smid =>
      rw [hstep] at h1
      refine ih smid s1 ?_ h1
      have hmid := tickStep_pending s smid hstep
      rw [h] at hmid
      simpa [chanSend] using hmid

/-- C9: the redraw mailbox never holds more than one pending request: a loop
iteration keeps the pending count at most 1, and N consecutive undrained
iterations (N ≥ 1) starting with an empty mailbox and a non-empty timer list
leave exactly one pending request, not N. -/
theorem redraw_coalescing :
    (∀ s s1, s.pendingRedraws ≤ 1 → tickStep s = some s1 → s1.pendingRedraws ≤ 1) ∧
    (∀ n s s1, 1 ≤ n → s.pendingRedraws = 0 → s.timers ≠ [] →
      tickIter n s = some s1 → s1.pendingRedraws = 1) := by
  constructor
  · intro s s1 hb hstep
    rw [tickStep_pending s s1 hstep]
    unfold chanSend
    split
    · exact hb
    · split <;> omega
  · intro n s s1 hn h0 hne hiter
    obtain ⟨k, rfl⟩ : ∃ k, n = k + 1 := ⟨n - 1, by omega⟩
    unfold tickIter at hiter
    cases hstep : tickStep s with
    | none =>
      rw [hstep] at hiter
      exact absurd hiter (by simp)
    | some smid =>
      rw [hstep] at hiter
      refine tickIter_pending_stable k smid s1 ?_ hiter
      have hmid := tickStep_pending s smid hstep
      have hie : s.timers.isEmpty = false := by
        rcases hl : s.timers with _ | ⟨a, l⟩
        · exact absurd hl hne
        · rfl
      rw [h0, hie] at hmid
      simpa [chanSend] using hmid

/-- A loop state with one running timer and an empty mailbox, for the C9
witness. -/
def c9s0 : LoopState :=
  ⟨[⟨⟨true, 3000000000, 1, 0, "", ""⟩, [⟨3000000000, 1000000000⟩], -1, false⟩], 0⟩

/-- The loop state two undrained iterations later: one pending request. -/
def c9res : LoopState :=
  ⟨[⟨⟨true, 1000000000, 1, 0, "", ""⟩, [⟨3000000000, 1000000000⟩], -1, false⟩], 1⟩

/-- C9 witness: two concrete undrained ticks leave exactly one pending
request. -/
theorem redraw_coalescing_witness :
    c9s0.pendingRedraws = 0 ∧ c9s0.timers ≠ [] ∧
    tickIter 2 c9s0 = some c9res ∧ c9res.pendingRedraws = 1 :=
  ⟨rfl, by decide, by decide,
   redraw_coalescing.2 2 c9s0 c9res (by decide) rfl (by decide) (by decide)⟩

/-- Decoding inverts encoding on one phase. -/
theorem decodePhase_encodePhase (p : TimerPhase) : decodePhase (encodePhase p) = some p := rfl

/-- Decoding inverts encoding on a phase list. -/
theorem decodePhaseList_map (ps : List TimerPhase) :
    decodePhaseList (ps.map encodePhase) = some ps := by
  induction ps with
  | nil => rfl
  | cons p rest ih => simp [decodePhaseList, decodePhase_encodePhase, ih]

/-- Decoding inverts encoding on one config. -/
theorem decodeConfig_encodeConfig (c : TimerConfig) :
    decodeConfig (encodeConfig c) = some c := by
  have hph : decodePhaseList (c.Phases.map encodePhase) = some c.Phases :=
    decodePhaseList_map c.Phases
  simp [decodeConfig, encodeConfig, decodeStrField, decodeIntField,
        Json.lookupField, decodePhases, hph]

/-- C6: serializing any sequence of TimerConfigs (save) and deserializing the
result (load) reproduces an equal sequence of (name, notificationText,
phases, maxCycles); the durations round-trip through their integer nanosecond
counts exactly. -/
theorem config_roundtrip (cs : List TimerConfig) :
    decodeConfigs (encodeConfigs cs) = some cs := by
  induction cs with
  | nil => rfl
  | cons c rest ih =>
    have ih2 : decodeConfigList (rest.map encodeConfig) = some rest := ih
    simp [encodeConfigs, decodeConfigs, decodeConfigList,
          decodeConfig_encodeConfig, ih2]

/-- C5 (counterexample): parseDuration does not return "N minutes" for every
valid integer N: Go computes the duration in 64-bit arithmetic, so
"200000000" (2e8 minutes = 1.2e19 ns, above the int64 maximum) comes back
wrapped to a negative duration instead of 200000000 * minute. -/
theorem parseDuration_spec_cex :
    parseDuration "200000000" = some (-6446744073709551616) ∧
    (200000000 : Int) * minute = 12000000000000000000 ∧
    (-6446744073709551616 : Int) ≠ 12000000000000000000 := by
  refine ⟨by decide, by decide, by decide⟩

/-- C5 (amended): for every trimmed input: with a ':' present, parsing
succeeds iff the string splits into exactly two strconv.Atoi-valid integer
fields MM and SS, and returns MM minutes plus SS seconds computed in
wrapping 64-bit (nanosecond) arithmetic — equal to the exact value whenever
it fits in int64; with no ':', parsing succeeds iff the whole string is
Atoi-valid, returning N minutes in the same wrapping arithmetic. "5" yields
5 minutes, "1:30" yields 90 seconds, "bad" and "1:2:3" fail. -/
theorem parseDuration_spec (s : String) (h : trimSpaceList s.data = s.data) :
    (containsColon s.data = true →
      ((parseDuration s).isSome = true ↔
        ∃ m sec, splitColon s.data = [m, sec] ∧
          (goAtoi m).isSome = true ∧ (goAtoi sec).isSome = true) ∧
      (∀ m sec mv sv, splitColon s.data = [m, sec] → goAtoi m = some mv →
        goAtoi sec = some sv →
        parseDuration s = some (wrap64 (wrap64 (mv * minute) + wrap64 (sv * second))))) ∧
    (containsColon s.data = false →
      ((parseDuration s).isSome = true ↔ (goAtoi s.data).isSome = true) ∧
      (∀ v, goAtoi s.data = some v → parseDuration s = some (wrap64 (v * minute)))) ∧
    parseDuration "5" = some (5 * minute) ∧
    parseDuration "1:30" = some (90 * second) ∧
    parseDuration "bad" = none ∧
    parseDuration "1:2:3" = none := by
  refine ⟨?_, ?_, by decide, by decide, by decide, by decide⟩
  · intro hc
    have hpd : parseDuration s =
        (match splitColon s.data with
         | [m, sec] =>
           (match goAtoi m, goAtoi sec with
            | some minutes, some seconds =>
              some (wrap64 (wrap64 (minutes * minute) + wrap64 (seconds * second)))
            | _, _ => none)
         | _ => none) := by
      unfold parseDuration
      rw [h, if_pos hc]
    rcases hsp : splitColon s.data with _ | ⟨m, _ | ⟨sec, _ | ⟨x, rest⟩⟩⟩
    · simp [hpd, hsp]
    · simp [hpd, hsp]
    · rcases ham : goAtoi m with _ | mv
      · simp only [hpd, hsp]
        simp [ham]
        intro m1 sec1 mv sv hm hs hga
        subst hm
        simp [ham] at hga
      · rcases has : goAtoi sec with _ | sv
        · simp only [hpd, hsp]
          simp [ham, has]
          intro m1 sec1 mv2 sv hm hs hga hgs
          subst hs
          simp [has] at hgs
        · simp only [hpd, hsp]
          simp [ham, has]
          refine ⟨⟨m, sec, ⟨rfl, rfl⟩, by simp [ham], by simp [has]⟩, ?_⟩
          intro m1 sec1 mv1 sv1 hm hs hga hgs
          subst hm
          subst hs
          rw [ham] at hga
          rw [has] at hgs
          injection hga with e1
          injection hgs with e2
          rw [e1, e2]
    · simp [hpd, hsp]
  · intro hc
    have hpd : parseDuration s =
        (match goAtoi s.data with
         | some minutes => some (wrap64 (minutes * minute))
         | none => none) := by
      unfold parseDuration
      rw [h, if_neg (by simp [hc])]
    rcases ha : goAtoi s.data with _ | v
    · simp [hpd, ha]
    · simp [hpd, ha]

/-- C5 witness at the concrete input "1:30". -/
theorem parseDuration_spec_witness :
    trimSpaceList "1:30".data = "1:30".data ∧
    parseDuration "1:30" = some (90 * second) :=
  ⟨by decide, (parseDuration_spec "1:30" (by decide)).2.2.2.1⟩
